import Mathlib

/-!
Verification of the `voxel_coarsen` pipeline.

The repository's visible code is the Python binding
`voxel_coarsen_py` in
`src/workflows/Stage3/pre_main_post_script/voxel_coarsen/src/pycoarsen/mod.rs`,
which forwards a file path and a coarsening factor to the core routine
`coarsen::voxel_coarsen` and boxes the resulting flat `Vec<i32>` as a 1-D
array.  The core routine (Loader, Coarsening Engine, Packager) is not part
of the visible sources, so it is modelled here from the specification:
a loader parsing a voxel file into a dense grid of `i32` labels, an
engine partitioning the grid into `k×k×k` blocks reduced by a fixed
deterministic rule (mode, ties broken by the lowest label), and a
packager returning the coarsened shape together with the flat buffer.
-/

/-- Error taxonomy of the pipeline: `IOError` (file open/read failures),
`FormatError` (malformed or inconsistent voxel file), `InvalidFactor`
(coarsen factor 0).  The string payloads carry the human-readable detail. -/
inductive CoarsenError where
  | ioError : String → CoarsenError
  | formatError : String → CoarsenError
  | invalidFactor : CoarsenError
deriving DecidableEq, Repr

/-- Human-readable message attached to each error value. -/
def CoarsenError.message : CoarsenError → String
  | .ioError s => "IOError: cannot open or read file " ++ s
  | .formatError s => "FormatError: malformed voxel file " ++ s
  | .invalidFactor => "InvalidFactor: coarsen_size must be positive"

/-- Modelled from the spec: dense 3D array of integer labels with
dimensions `(nx, ny, nz)`; the flat buffer uses the fixed iteration order
in which x varies fastest, then y, then z. -/
structure VoxelGrid where
  nx : Nat
  ny : Nat
  nz : Nat
  buffer : List Int
deriving DecidableEq, Repr

/-- The VoxelGrid invariant from the data model:
`len(buffer) == nx*ny*nz`. -/
def VoxelGrid.valid (g : VoxelGrid) : Prop :=
  g.buffer.length = g.nx * g.ny * g.nz

instance (g : VoxelGrid) : Decidable g.valid := by
  unfold VoxelGrid.valid; infer_instance

/-- Label stored at coordinates `(x, y, z)`, x varying fastest in the
flat buffer. -/
def VoxelGrid.label (g : VoxelGrid) (x y z : Nat) : Int :=
  g.buffer.getD (x + g.nx * (y + g.ny * z)) 0

/-- Modelled from the spec: raw content of a voxel dataset file —
a header declaring the three dimensions (absent when malformed) followed
by a flat array of integer labels. -/
structure RawVoxelFile where
  header : Option (Nat × Nat × Nat)
  data : List Int
deriving DecidableEq, Repr

/-- Modelled from the spec: the filesystem visible to the Loader, a map
from paths to file contents; `none` means the path cannot be opened or
read. -/
def FileSystem : Type := String → Option RawVoxelFile

/-- A label representable as a signed 32-bit integer. -/
def i32InRange (v : Int) : Bool :=
  decide (-2147483648 ≤ v) && decide (v < 2147483648)

/-- Modelled from the spec: the Voxel Loader.  `load(path) -> VoxelGrid`;
fails with `IOError` if the file cannot be opened/read, with
`FormatError` if the header is malformed, if the buffer length does not
match the declared dimensions, or if a label does not parse as an `i32`. -/
def load (fs : FileSystem) (path : String) : Except CoarsenError VoxelGrid :=
  match fs path with
  | none => .error (.ioError path)
  | some raw =>
    match raw.header with
    | none => .error (.formatError path)
    | some (nx, ny, nz) =>
      if raw.data.length = nx * ny * nz ∧ raw.data.all i32InRange then
        .ok ⟨nx, ny, nz, raw.data⟩
      else
        .error (.formatError path)

/-- Ceiling division, used for the output dimensions so that a final
partial block is kept (boundary voxels are folded into a last, smaller
block) and a factor exceeding a dimension still yields one block. -/
def ceilDiv (n k : Nat) : Nat := (n + k - 1) / k

/-- The half-open index interval `[lo, hi)` as a list. -/
def blockRange (lo hi : Nat) : List Nat :=
  (List.range (hi - lo)).map (fun d => lo + d)

/-- Modelled from the spec: the labels of block `(qx, qy, qz)` — the
voxels of the grid whose coordinates lie in the `k`-aligned cube of the
block, clipped to the grid bounds, listed with x varying fastest. -/
def blockLabels (g : VoxelGrid) (k qx qy qz : Nat) : List Int :=
  (blockRange (qz * k) (min ((qz + 1) * k) g.nz)).flatMap (fun z =>
    (blockRange (qy * k) (min ((qy + 1) * k) g.ny)).flatMap (fun y =>
      (blockRange (qx * k) (min ((qx + 1) * k) g.nx)).map (fun x =>
        g.label x y z)))

/-- One step of the mode reduction: keep the candidate with the larger
multiplicity in the block, ties broken by the lower label value. -/
def betterLabel (l : List Int) (a b : Int) : Int :=
  if l.count b > l.count a then b
  else if l.count b = l.count a ∧ b < a then b
  else a

/-- Modelled from the spec: the fixed per-block reduction rule — the
most-frequent label in the block, ties broken by the lowest label value. -/
def reduceBlock : List Int → Int
  | [] => 0
  | x :: xs => xs.foldl (betterLabel (x :: xs)) x

/-- Modelled from the spec: the Coarsening Engine.
`coarsen(grid, k) -> ((nx', ny', nz'), buffer)`: fails with
`InvalidFactor` if `k = 0`; otherwise partitions the grid into blocks of
side `k`, reduces each block and emits the flat coarsened buffer in the
same fixed iteration order (x fastest, then y, then z). -/
def coarsen (g : VoxelGrid) (k : Nat) :
    Except CoarsenError ((Nat × Nat × Nat) × List Int) :=
  if k = 0 then .error .invalidFactor
  else
    let n1 := ceilDiv g.nx k
    let n2 := ceilDiv g.ny k
    let n3 := ceilDiv g.nz k
    let buf := (List.range (n1 * n2 * n3)).map (fun i =>
      reduceBlock (blockLabels g k (i % n1) ((i / n1) % n2) (i / (n1 * n2))))
    .ok ((n1, n2, n3), buf)

/-- Modelled from the spec: the core entry point
`voxel_coarsen(file, coarsen_size)` — Loader, then Engine, the Packager
being the identity hand-off of the shape and buffer; any stage failure
propagates to the caller. -/
def voxel_coarsen (fs : FileSystem) (file : String) (coarsen_size : Nat) :
    Except CoarsenError ((Nat × Nat × Nat) × List Int) :=
  match load fs file with
  | .error e => .error e
  | .ok g => coarsen g coarsen_size

/-- A 1-D host array boxing a native buffer, as produced by
`PyArray1::from_vec_bound`. -/
structure PyArray1 where
  items : List Int
deriving DecidableEq, Repr

/-- The visible binding `voxel_coarsen_py` from
`src/workflows/Stage3/pre_main_post_script/voxel_coarsen/src/pycoarsen/mod.rs`:
calls the core `voxel_coarsen`, propagates its error with `?`, and on
success returns the shape unchanged together with the buffer boxed as a
1-D array. -/
def voxel_coarsen_py (fs : FileSystem) (file : String) (coarsen_size : Nat) :
    Except CoarsenError ((Nat × Nat × Nat) × PyArray1) :=
  match voxel_coarsen fs file coarsen_size with
  | .error e => .error e
  | .ok result => .ok (result.1, PyArray1.mk result.2)

/-- Fixture: a filesystem in which every path holds a well-formed 1×1×2
voxel file with labels `[5, 6]`. -/
def constFS : FileSystem := fun _ => some ⟨some (1, 1, 2), [5, 6]⟩

/-- Fixture: a filesystem with no readable file at any path. -/
def emptyFS : FileSystem := fun _ => none

/-- Fixture: a 1×1×2 grid. -/
def c4Grid : VoxelGrid := ⟨1, 1, 2, [7, 9]⟩

/-- Fixture: a 2×2×2 grid. -/
def c5Grid : VoxelGrid := ⟨2, 2, 2, [1, 1, 1, 1, 2, 2, 2, 2]⟩

/-- Fixture: a 2×1×1 grid. -/
def c7Grid : VoxelGrid := ⟨2, 1, 1, [3, 4]⟩

/-! Helper lemmas about the arithmetic and list plumbing of the engine. -/

lemma ceilDiv_by_one (n : Nat) : ceilDiv n 1 = n := by simp [ceilDiv]

lemma ceilDiv_of_dvd {n k : Nat} (hk : k ≠ 0) (h : k ∣ n) : ceilDiv n k = n / k := by
  obtain ⟨m, rfl⟩ := h
  have hkpos : 0 < k := Nat.pos_of_ne_zero hk
  unfold ceilDiv
  rw [Nat.mul_div_cancel_left m hkpos]
  have h2 : k * m + k - 1 = (k - 1) + m * k := by
    have h3 : k * m = m * k := Nat.mul_comm k m
    omega
  rw [h2, Nat.add_mul_div_right _ _ hkpos, Nat.div_eq_of_lt (by omega : k - 1 < k)]
  simp

lemma ceilDiv_eq_one {n k : Nat} (hn : 0 < n) (h : n < k) : ceilDiv n k = 1 := by
  unfold ceilDiv
  apply Nat.div_eq_of_lt_le <;> omega

lemma coarsen_eq (g : VoxelGrid) (k : Nat) (hk : k ≠ 0) :
    coarsen g k = .ok ((ceilDiv g.nx k, ceilDiv g.ny k, ceilDiv g.nz k),
      (List.range (ceilDiv g.nx k * ceilDiv g.ny k * ceilDiv g.nz k)).map (fun i =>
        reduceBlock (blockLabels g k (i % ceilDiv g.nx k)
          ((i / ceilDiv g.nx k) % ceilDiv g.ny k)
          (i / (ceilDiv g.nx k * ceilDiv g.ny k))))) := by
  simp [coarsen, hk]

lemma decode_encode (nx ny : Nat) (i : Nat) :
    i % nx + nx * (i / nx % ny + ny * (i / (nx * ny))) = i := by
  rw [← Nat.div_div_eq_div_mul, Nat.mod_add_div, Nat.mod_add_div]

lemma map_getD_range (l : List Int) :
    (List.range l.length).map (fun i => l.getD i 0) = l := by
  apply List.ext_getElem
  · simp
  · intro n h1 h2
    simp [List.getD_eq_getElem?_getD, List.getElem?_eq_getElem h2]

lemma message_ne_empty (e : CoarsenError) : e.message ≠ "" := by
  have h4 : ("" : String).length = 0 := rfl
  cases e <;> intro h <;> have h2 := congrArg String.length h <;>
    rw [CoarsenError.message] at h2
  · rw [String.length_append] at h2
    have h3 : 0 < ("IOError: cannot open or read file ").length := by decide
    omega
  · rw [String.length_append] at h2
    have h3 : 0 < ("FormatError: malformed voxel file ").length := by decide
    omega
  · have h3 : 0 < ("InvalidFactor: coarsen_size must be positive").length := by decide
    omega

lemma voxel_coarsen_load_ok {fs : FileSystem} {f : String} {g : VoxelGrid}
    (hl : load fs f = .ok g) (k : Nat) : voxel_coarsen fs f k = coarsen g k := by
  unfold voxel_coarsen; rw [hl]

lemma voxel_coarsen_load_error {fs : FileSystem} {f : String} {e : CoarsenError}
    (hl : load fs f = .error e) (k : Nat) : voxel_coarsen fs f k = .error e := by
  unfold voxel_coarsen; rw [hl]

lemma betterLabel_eq_or (l : List Int) (a b : Int) :
    betterLabel l a b = a ∨ betterLabel l a b = b := by
  unfold betterLabel
  split_ifs <;> simp

lemma foldl_betterLabel_mem (l : List Int) (xs : List Int) (a : Int) :
    xs.foldl (betterLabel l) a ∈ a :: xs := by
  induction xs generalizing a with
  | nil => simp
  | cons y ys ih =>
    simp only [List.foldl_cons]
    have h := ih (betterLabel l a y)
    rcases List.mem_cons.mp h with h1 | h1
    · rcases betterLabel_eq_or l a y with h' | h'
      · rw [h1, h']
        exact List.mem_cons_self _ _
      · rw [h1, h']
        exact List.mem_cons_of_mem _ (List.mem_cons_self _ _)
    · exact List.mem_cons_of_mem _ (List.mem_cons_of_mem _ h1)

lemma reduceBlock_mem (l : List Int) : reduceBlock l = 0 ∨ reduceBlock l ∈ l := by
  cases l with
  | nil => left; rfl
  | cons x xs => right; exact foldl_betterLabel_mem (x :: xs) xs x

lemma label_mem_or_zero (g : VoxelGrid) (x y z : Nat) :
    g.label x y z ∈ g.buffer ∨ g.label x y z = 0 := by
  unfold VoxelGrid.label
  rcases hg : g.buffer[x + g.nx * (y + g.ny * z)]? with _ | v
  · right; simp [List.getD_eq_getElem?_getD, hg]
  · left
    rw [List.getD_eq_getElem?_getD, hg]
    exact List.getElem?_mem hg

lemma blockLabels_mem {g : VoxelGrid} {k qx qy qz : Nat} {v : Int}
    (h : v ∈ blockLabels g k qx qy qz) : v ∈ g.buffer ∨ v = 0 := by
  unfold blockLabels at h
  simp only [List.mem_flatMap, List.mem_map] at h
  obtain ⟨z, -, y, -, x, -, rfl⟩ := h
  exact label_mem_or_zero g x y z

lemma load_ok_elim {fs : FileSystem} {path : String} {g : VoxelGrid}
    (h : load fs path = .ok g) :
    ∀ v ∈ g.buffer, i32InRange v = true := by
  rcases hfs : fs path with _ | raw
  · simp only [load, hfs] at h
    exact absurd h (by simp)
  · rcases hh : raw.header with _ | ⟨nx, ny, nz⟩
    · simp only [load, hfs, hh] at h
      exact absurd h (by simp)
    · simp only [load, hfs, hh] at h
      split_ifs at h with hc
      · simp only [Except.ok.injEq] at h
        subst h
        intro v hv
        exact List.all_eq_true.mp (by exact_mod_cast hc.2) v hv

lemma blockRange_single {b n : Nat} (h : b < n) :
    blockRange (b * 1) (min ((b + 1) * 1) n) = [b] := by
  unfold blockRange
  have h1 : min ((b + 1) * 1) n = b + 1 := by omega
  have h2 : b + 1 - b * 1 = 1 := by omega
  rw [h1, h2, show List.range 1 = [0] from rfl]
  simp

lemma blockLabels_single {g : VoxelGrid} {x y z : Nat}
    (hx : x < g.nx) (hy : y < g.ny) (hz : z < g.nz) :
    blockLabels g 1 x y z = [g.label x y z] := by
  unfold blockLabels
  rw [blockRange_single hz, blockRange_single hy, blockRange_single hx]
  simp

lemma reduceBlock_singleton (v : Int) : reduceBlock [v] = v := rfl

/-- Claim C1: the entry point `voxel_coarsen` accepts a file path string
and an unsigned-integer `coarsen_size`, and on every successful call
returns a pair of a 3-tuple of unsigned dimensions and a flat sequence of
signed 32-bit integers: the return type exhibits the pair and the
unsigned 3-tuple, and every label of the returned buffer lies in the
signed 32-bit range. -/
theorem voxel_coarsen_ok_labels_i32 (fs : FileSystem) (f : String) (k : Nat)
    (shape : Nat × Nat × Nat) (buf : List Int)
    (h : voxel_coarsen fs f k = .ok (shape, buf)) :
    ∀ v ∈ buf, -2147483648 ≤ v ∧ v < 2147483648 := by
  intro v hv
  cases hl : load fs f with
  | error e => rw [voxel_coarsen_load_error hl k] at h; exact absurd h (by simp)
  | ok g =>
    rw [voxel_coarsen_load_ok hl k] at h
    have hrange := load_ok_elim hl
    by_cases hk : k = 0
    · rw [hk] at h; exact absurd h (by simp [coarsen])
    · rw [coarsen_eq g k hk] at h
      simp only [Except.ok.injEq, Prod.mk.injEq] at h
      obtain ⟨hsh, hbuf⟩ := h
      rw [← hbuf] at hv
      simp only [List.mem_map, List.mem_range] at hv
      obtain ⟨i, hi, hred⟩ := hv
      subst hred
      rcases reduceBlock_mem (blockLabels g k (i % ceilDiv g.nx k)
          ((i / ceilDiv g.nx k) % ceilDiv g.ny k)
          (i / (ceilDiv g.nx k * ceilDiv g.ny k))) with h0 | hmem
      · rw [h0]; constructor <;> decide
      · rcases blockLabels_mem hmem with hb | h0
        · have hr := hrange _ hb
          simp only [i32InRange, Bool.and_eq_true, decide_eq_true_eq] at hr
          exact hr
        · rw [h0]; constructor <;> decide

/-- Witness for C1: a concrete successful call whose returned label 5 is
in the signed 32-bit range. -/
theorem voxel_coarsen_ok_labels_i32_witness :
    -2147483648 ≤ (5 : Int) ∧ (5 : Int) < 2147483648 :=
  voxel_coarsen_ok_labels_i32 constFS "grid" 1 (1, 1, 2) [5, 6] rfl 5 (by decide)

/-- Claim C2: for every successful call to `voxel_coarsen`, the length of
the returned flat buffer equals the product of the three components of
the returned shape tuple. -/
theorem voxel_coarsen_ok_length_eq_product (fs : FileSystem) (f : String)
    (k n1 n2 n3 : Nat) (buf : List Int)
    (h : voxel_coarsen fs f k = .ok ((n1, n2, n3), buf)) :
    buf.length = n1 * n2 * n3 := by
  cases hl : load fs f with
  | error e => rw [voxel_coarsen_load_error hl k] at h; exact absurd h (by simp)
  | ok g =>
    rw [voxel_coarsen_load_ok hl k] at h
    by_cases hk : k = 0
    · rw [hk] at h; simp [coarsen] at h
    · rw [coarsen_eq g k hk] at h
      simp only [Except.ok.injEq, Prod.mk.injEq] at h
      obtain ⟨⟨h1, h2, h3⟩, h4⟩ := h
      subst h1; subst h2; subst h3
      rw [← h4]
      simp

/-- Witness for C2: a concrete successful call returning a 1×1×2 shape
and a buffer of length 2. -/
theorem voxel_coarsen_ok_length_eq_product_witness :
    ([5, 6] : List Int).length = 1 * 1 * 2 :=
  voxel_coarsen_ok_length_eq_product constFS "grid" 1 1 1 2 [5, 6] rfl

/-- Claim C3: for every grid, coarsening with factor 0 fails with the
`InvalidFactor` error, and for every file input the call with
`coarsen_size = 0` never succeeds. -/
theorem coarsen_size_zero_invalid_factor :
    (∀ g : VoxelGrid, coarsen g 0 = .error CoarsenError.invalidFactor) ∧
    (∀ (fs : FileSystem) (file : String), ∃ e, voxel_coarsen fs file 0 = .error e) := by
  constructor
  · intro g; simp [coarsen]
  · intro fs file
    cases hl : load fs file with
    | error e => exact ⟨e, voxel_coarsen_load_error hl 0⟩
    | ok g =>
      exact ⟨.invalidFactor, by rw [voxel_coarsen_load_ok hl 0]; simp [coarsen]⟩

/-- Claim C4: for every valid grid, `coarsen grid 1` returns a grid with
the same shape and the same buffer contents as the input (k = 1 is the
identity transform). -/
theorem coarsen_one_identity (g : VoxelGrid) (h : g.valid) :
    coarsen g 1 = .ok ((g.nx, g.ny, g.nz), g.buffer) := by
  rw [coarsen_eq g 1 one_ne_zero, ceilDiv_by_one, ceilDiv_by_one, ceilDiv_by_one]
  have hlen : g.buffer.length = g.nx * g.ny * g.nz := h
  suffices hbuf : (List.range (g.nx * g.ny * g.nz)).map (fun i =>
      reduceBlock (blockLabels g 1 (i % g.nx) ((i / g.nx) % g.ny)
        (i / (g.nx * g.ny)))) = g.buffer by rw [hbuf]
  by_cases h0 : g.nx * g.ny * g.nz = 0
  · rw [h0]
    simp only [List.range_zero, List.map_nil]
    exact (List.eq_nil_of_length_eq_zero (hlen.trans h0)).symm
  · have hx : 0 < g.nx := Nat.pos_of_ne_zero (fun hh => h0 (by rw [hh]; ring))
    have hy : 0 < g.ny := Nat.pos_of_ne_zero (fun hh => h0 (by rw [hh]; ring))
    have step : ∀ i ∈ List.range (g.nx * g.ny * g.nz),
        reduceBlock (blockLabels g 1 (i % g.nx) ((i / g.nx) % g.ny)
          (i / (g.nx * g.ny))) = g.buffer.getD i 0 := by
      intro i hi
      rw [List.mem_range] at hi
      have hxi : i % g.nx < g.nx := Nat.mod_lt _ hx
      have hyi : (i / g.nx) % g.ny < g.ny := Nat.mod_lt _ hy
      have hzi : i / (g.nx * g.ny) < g.nz := by
        rw [Nat.div_lt_iff_lt_mul (Nat.mul_pos hx hy)]
        calc i < g.nx * g.ny * g.nz := hi
          _ = g.nz * (g.nx * g.ny) := by ring
      rw [blockLabels_single hxi hyi hzi, reduceBlock_singleton]
      unfold VoxelGrid.label
      rw [decode_encode]
    rw [List.map_congr_left step, ← hlen, map_getD_range]

/-- Witness for C4: coarsening a concrete valid 1×1×2 grid with factor 1
returns the same shape and buffer. -/
theorem coarsen_one_identity_witness :
    coarsen c4Grid 1 = .ok ((1, 1, 2), [7, 9]) :=
  coarsen_one_identity c4Grid (by decide)

/-- Claim C5: for every grid and every k > 1 dividing each of nx, ny, nz
evenly, the call succeeds, each output dimension is the integer division
of the input dimension by k, and the output buffer length equals
`(nx/k)*(ny/k)*(nz/k)`. -/
theorem coarsen_divisible_output (g : VoxelGrid) (k : Nat) (hk : 1 < k)
    (h1 : k ∣ g.nx) (h2 : k ∣ g.ny) (h3 : k ∣ g.nz) :
    (coarsen g k).map (fun r => (r.1, r.2.length)) =
      .ok ((g.nx / k, g.ny / k, g.nz / k), g.nx / k * (g.ny / k) * (g.nz / k)) := by
  have hk0 : k ≠ 0 := by omega
  rw [coarsen_eq g k hk0, ceilDiv_of_dvd hk0 h1, ceilDiv_of_dvd hk0 h2,
    ceilDiv_of_dvd hk0 h3]
  simp [Except.map]

/-- Witness for C5: a concrete 2×2×2 grid coarsened by 2 yields shape
(1, 1, 1) and a buffer of length 1. -/
theorem coarsen_divisible_output_witness :
    (coarsen c5Grid 2).map (fun r => (r.1, r.2.length)) = .ok ((1, 1, 1), 1) :=
  coarsen_divisible_output c5Grid 2 (by decide) ⟨1, rfl⟩ ⟨1, rfl⟩ ⟨1, rfl⟩

/-- Claim C6: for every input grid and factor k, two invocations of
`coarsen` with the same grid and the same k produce identical outputs:
the transform is a pure function of the grid and the factor, with no
randomness and no floating-point accumulation. -/
theorem coarsen_deterministic (g1 g2 : VoxelGrid) (k1 k2 : Nat)
    (h1 : g1 = g2) (h2 : k1 = k2) :
    coarsen g1 k1 = coarsen g2 k2 := by rw [h1, h2]

/-- Witness for C6: two invocations on a concrete grid and factor agree. -/
theorem coarsen_deterministic_witness :
    coarsen c4Grid 2 = coarsen c4Grid 2 :=
  coarsen_deterministic c4Grid c4Grid 2 2 rfl rfl

/-- Claim C7: for every nonempty grid and every k that exceeds every grid
dimension, the operation succeeds (it is not an error case) and each
output dimension degenerates to 1 (a single block per axis). -/
theorem coarsen_large_factor_degenerate (g : VoxelGrid) (k : Nat)
    (hx : 0 < g.nx) (hy : 0 < g.ny) (hz : 0 < g.nz)
    (h1 : g.nx < k) (h2 : g.ny < k) (h3 : g.nz < k) :
    (coarsen g k).map Prod.fst = .ok (1, 1, 1) := by
  have hk0 : k ≠ 0 := by omega
  rw [coarsen_eq g k hk0, ceilDiv_eq_one hx h1, ceilDiv_eq_one hy h2,
    ceilDiv_eq_one hz h3]
  rfl

/-- Witness for C7: a concrete 2×1×1 grid coarsened by 3 succeeds with
shape (1, 1, 1). -/
theorem coarsen_large_factor_degenerate_witness :
    (coarsen c7Grid 3).map Prod.fst = .ok (1, 1, 1) :=
  coarsen_large_factor_degenerate c7Grid 3 (by decide) (by decide) (by decide)
    (by decide) (by decide) (by decide)

/-- Claim C8: for every call in which the Loader or the Engine fails, the
caller receives exactly that single error value, the error carries a
nonempty human-readable message, and no partial result is returned (no
success value coexists with the failure). -/
theorem failure_propagates_single_error (fs : FileSystem) (f : String)
    (k : Nat) (e : CoarsenError)
    (h : load fs f = .error e ∨ ∃ g, load fs f = .ok g ∧ coarsen g k = .error e) :
    voxel_coarsen fs f k = .error e ∧ e.message ≠ "" ∧
      ∀ r, voxel_coarsen fs f k ≠ .ok r := by
  have hmain : voxel_coarsen fs f k = .error e := by
    rcases h with hl | ⟨g, hl, hc⟩
    · exact voxel_coarsen_load_error hl k
    · rw [voxel_coarsen_load_ok hl k]; exact hc
  exact ⟨hmain, message_ne_empty e,
    fun r hr => by rw [hmain] at hr; exact absurd hr (by simp)⟩

/-- Witness for C8: a concrete Loader failure surfaces as the single
`IOError` value of the call. -/
theorem failure_propagates_single_error_witness :
    voxel_coarsen emptyFS "data.vox" 2 = .error (CoarsenError.ioError "data.vox") :=
  (failure_propagates_single_error emptyFS "data.vox" 2
    (CoarsenError.ioError "data.vox") (Or.inl rfl)).1

/-- Claim C9: for every path that does not reference a readable file, and
every factor, `voxel_coarsen` fails with the `IOError` error; the model
is a total function, so no panic or crash is possible. -/
theorem nonexistent_path_io_error (fs : FileSystem) (f : String) (k : Nat)
    (h : fs f = none) :
    voxel_coarsen fs f k = .error (.ioError f) := by
  unfold voxel_coarsen load
  rw [h]

/-- Witness for C9: loading a concrete nonexistent path fails with
`IOError`. -/
theorem nonexistent_path_io_error_witness :
    voxel_coarsen emptyFS "missing.vox" 3 = .error (CoarsenError.ioError "missing.vox") :=
  nonexistent_path_io_error emptyFS "missing.vox" 3 rfl

/-- Claim C10: the Python-exposed binding `voxel_coarsen_py` is a pure
pass-through of the core `voxel_coarsen`: it forwards both arguments
unchanged, returns the core's shape tuple unchanged, boxes the core's
output vector element for element in order, adds no validation or
transformation of its own, and fails exactly when the core fails. -/
theorem voxel_coarsen_py_passthrough (fs : FileSystem) (f : String) (k : Nat) :
    voxel_coarsen_py fs f k =
      (voxel_coarsen fs f k).map (fun r => (r.1, PyArray1.mk r.2)) := by
  unfold voxel_coarsen_py
  cases h : voxel_coarsen fs f k <;> rfl
